import Mathlib

/-!
Verification development for the PiCal repository (Go backend of a household
calendar).  The definitions below are shallow embeddings of the Go source:

* `schemas.*` embeds `backend/database/schemas` (schema.go, event.go,
  occurrence.go, exception.go): column/schema data types, the SQL
  `CREATE TABLE` string generation, and the event CRUD validation logic.
* `server.*` embeds `backend/server` (events.go): the pagination query
  parsing, the `GET /events/{id}` handler and database initialisation.
* `engine.*` models the recurrence engine, which the repository specifies
  but does not implement; those definitions are modelled from the spec.

Go `string` becomes `String`, Go pointers (`*string`, `*time.Time`) become
`Option`, Go `time.Time` instants become `Int` (an opaque linear instant),
Go errors become the inductive `GoError` with `errorsIs` playing the role
of `errors.Is`, and database effects are made explicit (the list of issued
queries, a table-name state).
-/

/-- Substring test on character lists: `isPrefixOfCL p s` holds when `p`
is an initial segment of `s`. -/
def isPrefixOfCL : List Char → List Char → Bool
  | [], _ => true
  | _ :: _, [] => false
  | a :: as, b :: bs => a == b && isPrefixOfCL as bs

/-- `containsCL p s` holds when `p` occurs contiguously inside `s`. -/
def containsCL (pat : List Char) : List Char → Bool
  | [] => isPrefixOfCL pat []
  | c :: rest => isPrefixOfCL pat (c :: rest) || containsCL pat rest

/-- `occursIn s pat` holds when the string `pat` occurs as a contiguous
substring of `s`. -/
def occursIn (s pat : String) : Bool :=
  containsCL pat.data s.data

namespace schemas

/-- Go `type ColumnType int` with its five enumerators (schema.go). -/
inductive ColumnType where
  | ColumnString
  | ColumnInt
  | ColumnBool
  | ColumnTimestamp
  | ColumnUUID
deriving DecidableEq, Repr

/-- Go `type ForeignKeyMatch struct` (schema.go).  The two action fields
are Go strings whose zero value `""` means "no clause". -/
structure ForeignKeyMatch where
  TargetSchema : String
  ColumnName : String
  OnDelete : String := ""
  OnUpdate : String := ""
deriving DecidableEq, Repr

/-- Go `type Column struct` (schema.go).  The Go field `Type` is spelled
`typ` here because `Type` is reserved in Lean. -/
structure Column where
  Name : String
  typ : ColumnType
  PrimaryKey : Bool := false
  ForeignKey : List ForeignKeyMatch := []
  Nullable : Bool := false
  DefaultSQLExpr : Option String := none
deriving DecidableEq, Repr

/-- Go `type Schema struct` (schema.go). -/
structure Schema where
  Name : String
  Columns : List Column
deriving DecidableEq, Repr

/-- `columnTypeToString` (schema.go). -/
def columnTypeToString : ColumnType → String
  | .ColumnString => "varchar(255)"
  | .ColumnInt => "integer"
  | .ColumnBool => "boolean"
  | .ColumnTimestamp => "timestamptz"
  | .ColumnUUID => "uuid"

/-- The `parts` list that Go's `columnToString` accumulates before joining
with a space (schema.go): name, type, optional inline `PRIMARY KEY` (only
when the schema has at most one primary-key column), `NOT NULL` unless
nullable, optional `DEFAULT`, then one `REFERENCES` clause per foreign key. -/
def columnParts (col : Column) (pkCount : Nat) : List String :=
  [col.Name, columnTypeToString col.typ]
    ++ (if col.PrimaryKey && pkCount ≤ 1 then ["PRIMARY KEY"] else [])
    ++ (if !col.Nullable then ["NOT NULL"] else [])
    ++ (match col.DefaultSQLExpr with
        | some e => ["DEFAULT " ++ e]
        | none => [])
    ++ col.ForeignKey.map (fun fk =>
        "REFERENCES " ++ fk.TargetSchema ++ "(" ++ fk.ColumnName ++ ")"
          ++ (if fk.OnDelete ≠ "" then " ON DELETE " ++ fk.OnDelete else "")
          ++ (if fk.OnUpdate ≠ "" then " ON UPDATE " ++ fk.OnUpdate else ""))

/-- `columnToString` (schema.go): `strings.Join(parts, " ")`. -/
def columnToString (col : Column) (pkCount : Nat) : String :=
  " ".intercalate (columnParts col pkCount)

/-- The primary-key column names collected by `schemaToCreationString`
(schema.go). -/
def pkCols (schema : Schema) : List String :=
  (schema.Columns.filter (·.PrimaryKey)).map (·.Name)

/-- The comma-joined column/constraint pieces of `schemaToCreationString`
(schema.go): every column rendered, then a table-level composite
`PRIMARY KEY (...)` when more than one column is marked primary. -/
def schemaCols (schema : Schema) : List String :=
  schema.Columns.map (fun col => columnToString col (pkCols schema).length)
    ++ (if (pkCols schema).length > 1 then
          ["PRIMARY KEY (" ++ ", ".intercalate (pkCols schema) ++ ")"]
        else [])

/-- `schemaToCreationString` (schema.go). -/
def schemaToCreationString (schema : Schema) : String :=
  "CREATE TABLE IF NOT EXISTS " ++ schema.Name ++ " ("
    ++ ", ".intercalate (schemaCols schema) ++ ");"

/-- `SQLDefault` (schema.go) wraps a SQL expression for use as a default. -/
def SQLDefault (expr : String) : Option String := some expr

/-- `DefaultTimezone` (schema.go): the SQL literal `'UTC'` (the two
`\x27` escapes are the single quotes of the Go source). -/
def DefaultTimezone : Option String := SQLDefault "\x27UTC\x27"

/-- `DefaultFalse` (schema.go). -/
def DefaultFalse : Option String := SQLDefault "FALSE"

/-- `DefaultUUID` (schema.go). -/
def DefaultUUID : Option String := SQLDefault "gen_random_uuid()"

/-- `CreateEventSchema` (event.go): the `events` table. -/
def CreateEventSchema : Schema :=
  { Name := "events"
    Columns :=
      [ { Name := "eventID", typ := .ColumnUUID, PrimaryKey := true,
          DefaultSQLExpr := DefaultUUID }
      , { Name := "personName", typ := .ColumnString }
      , { Name := "title", typ := .ColumnString }
      , { Name := "notes", typ := .ColumnString, Nullable := true }
      , { Name := "timezone", typ := .ColumnString,
          DefaultSQLExpr := DefaultTimezone }
      , { Name := "allDay", typ := .ColumnBool,
          DefaultSQLExpr := DefaultFalse }
      , { Name := "rrule", typ := .ColumnString, Nullable := true } ] }

/-- `CreateExceptionSchema` (exception.go): the `exceptions` table, with a
composite primary key on `(eventID, recurrenceID)` and a cascade-deleting
foreign key from `eventID` to `events(eventID)`. -/
def CreateExceptionSchema : Schema :=
  { Name := "exceptions"
    Columns :=
      [ { Name := "eventID", typ := .ColumnUUID, PrimaryKey := true,
          ForeignKey := [ { TargetSchema := "events", ColumnName := "eventID",
                            OnDelete := "CASCADE" } ] }
      , { Name := "recurrenceID", typ := .ColumnTimestamp, PrimaryKey := true }
      , { Name := "kind", typ := .ColumnInt }
      , { Name := "newStart", typ := .ColumnTimestamp, Nullable := true }
      , { Name := "newEnd", typ := .ColumnTimestamp, Nullable := true } ] }

/-- `CreateOccurrenceSchema` (occurrence.go): the `occurrences` table. -/
def CreateOccurrenceSchema : Schema :=
  { Name := "occurrences"
    Columns :=
      [ { Name := "eventID", typ := .ColumnUUID, PrimaryKey := true,
          ForeignKey := [ { TargetSchema := "Events", ColumnName := "eventID",
                            OnDelete := "CASCADE" } ] }
      , { Name := "startTime", typ := .ColumnTimestamp }
      , { Name := "endTime", typ := .ColumnTimestamp, Nullable := true }
      , { Name := "moved", typ := .ColumnBool,
          DefaultSQLExpr := SQLDefault "FALSE" }
      , { Name := "oldStartTime", typ := .ColumnTimestamp, Nullable := true }
      , { Name := "oldEndTime", typ := .ColumnTimestamp, Nullable := true } ] }

end schemas

/-- Go errors as the engine and store produce them: the `sql.ErrNoRows`
sentinel, a plain `fmt.Errorf` message, or a message wrapping a cause
(`fmt.Errorf` with `%w`). -/
inductive GoError where
  | errNoRows
  | msg (s : String)
  | wrap (s : String) (cause : GoError)
deriving DecidableEq, Repr

/-- The rendered `Error()` string of a `GoError`; `fmt.Errorf("p: %w", e)`
renders as `"p: " ++ e.Error()`, and `sql.ErrNoRows` as Go prints it. -/
def errMsg : GoError → String
  | .errNoRows => "sql: no rows in result set"
  | .msg s => s
  | .wrap s cause => s ++ ": " ++ errMsg cause

/-- Go `errors.Is(err, target)`: `err` equals the target sentinel or wraps
an error that does. -/
def errorsIs : GoError → GoError → Bool
  | .errNoRows, t => .errNoRows == t
  | .msg s, t => GoError.msg s == t
  | .wrap s cause, t => GoError.wrap s cause == t || errorsIs cause t

namespace schemas

/-- Go `type Event struct` (event.go), JSON tags `eventId`, `personName`,
`title`, `notes,omitempty`, `timezone`, `allDay`, `rrule,omitempty`. -/
structure Event where
  EventID : String
  PersonName : String
  Title : String
  Notes : Option String
  Timezone : String
  AllDay : Bool
  Rrule : Option String
deriving DecidableEq, Repr

/-- The zero value `Event{}` that the Go store returns on every error
path: empty strings, `false`, nil pointers. -/
def zeroEvent : Event :=
  { EventID := "", PersonName := "", Title := "", Notes := none,
    Timezone := "", AllDay := false, Rrule := none }

/-- The events table plus the outcome of `INSERT ... RETURNING` followed
by `row.Scan` (the scanned row and a possible scan error), standing for
the live `*sql.DB` connection. -/
structure DB where
  events : List Event
  insertRow : Event → Event × Option GoError

/-- Result of `CreateEvent`: the returned event, the returned error, and
the SQL statements the call actually issued to the database. -/
structure CreateEventResult where
  event : Event
  err : Option GoError
  queries : List String
deriving Repr

/-- The `INSERT` statement text of `CreateEvent` (event.go). -/
def insertEventSQL : String :=
  "INSERT INTO events (personName, title, notes, timezone, allDay, rrule) VALUES ($1, $2, $3, $4, $5, $6) RETURNING eventID, personName, title, notes, timezone, allDay, rrule;"

/-- `CreateEvent` (event.go): nil-db check, then the three validation
checks on `PersonName`, `Title` and `Timezone` (each returning
`Event{}` and an error before any query is issued), then the single
`INSERT ... RETURNING` round trip whose scan error is wrapped as
`"insert event: %w"`. -/
def CreateEvent (db : Option DB) (inEvent : Event) : CreateEventResult :=
  match db with
  | none => ⟨zeroEvent, some (.msg "db is nil"), []⟩
  | some db =>
    if inEvent.PersonName = "" then
      ⟨zeroEvent, some (.msg "personName is required"), []⟩
    else if inEvent.Title = "" then
      ⟨zeroEvent, some (.msg "title is required"), []⟩
    else if inEvent.Timezone = "" then
      ⟨zeroEvent, some (.msg "timezone is required"), []⟩
    else
      match db.insertRow inEvent with
      | (out, none) => ⟨out, none, [insertEventSQL]⟩
      | (_, some e) => ⟨zeroEvent, some (.wrap "insert event" e), [insertEventSQL]⟩

/-- `GetEvent` (event.go): nil-db check, `QueryRowContext` on
`eventID = $1`, then `row.Scan`; a missing row makes `Scan` return
`sql.ErrNoRows`, which `GetEvent` wraps as `"list events scan: %w"`. -/
def GetEvent (db : Option DB) (id : String) : Option Event × Option GoError :=
  match db with
  | none => (none, some (.msg "db is nil"))
  | some db =>
    match db.events.find? (fun e => e.EventID == id) with
    | some e => (some e, none)
    | none => (none, some (.wrap "list events scan" .errNoRows))

/-- Go `type OccurrenceType int` (occurrence.go). -/
inductive OccurrenceType where
  | OccurrenceNormal
  | OccurrenceMoved
  | OccurrenceCancelled
deriving DecidableEq, Repr

/-- The integer value of an `OccurrenceType` (iota order). -/
def occurrenceTypeToInt : OccurrenceType → Int
  | .OccurrenceNormal => 0
  | .OccurrenceMoved => 1
  | .OccurrenceCancelled => 2

/-- Go `type Occurrence struct` (occurrence.go) with its JSON tags:
`eventId`, `startTime`, `endTime,omitempty`, `moved` (on the `Kind`
field), `newStartTime,omitempty`, `newEndTime,omitempty`.  `time.Time`
instants are modelled as `Int`.  The Go field `Kind` keeps its name. -/
structure Occurrence where
  EventID : String
  StartTime : Int
  EndTime : Option Int := none
  Kind : OccurrenceType := .OccurrenceNormal
  NewStartTime : Option Int := none
  NewEndTime : Option Int := none
deriving DecidableEq, Repr

/-- A JSON value as `encoding/json` produces it for this struct: a string,
an integer, or a marshalled `time.Time` instant. -/
inductive JValue where
  | jstr (s : String)
  | jint (n : Int)
  | jtime (t : Int)
deriving DecidableEq, Repr

/-- `encoding/json` marshalling of `Occurrence` as the name/value pairs of
the emitted JSON object, in struct order: fields without `omitempty` are
always present (`eventId`, `startTime`, and `moved` — the `Kind` integer);
`omitempty` pointer fields appear exactly when non-nil. -/
def marshalOccurrence (o : Occurrence) : List (String × JValue) :=
  [("eventId", .jstr o.EventID), ("startTime", .jtime o.StartTime)]
    ++ (match o.EndTime with
        | some t => [("endTime", JValue.jtime t)]
        | none => [])
    ++ [("moved", .jint (occurrenceTypeToInt o.Kind))]
    ++ (match o.NewStartTime with
        | some t => [("newStartTime", JValue.jtime t)]
        | none => [])
    ++ (match o.NewEndTime with
        | some t => [("newEndTime", JValue.jtime t)]
        | none => [])

/-- The field names of the JSON serialization of an `Occurrence`. -/
def occurrenceJSONFields (o : Occurrence) : List String :=
  (marshalOccurrence o).map (·.1)

end schemas

namespace server

/-- `r.URL.Query().Get(key)`: the first value for `key`, or `""` when the
parameter is absent. -/
def queryGet (query : List (String × String)) (key : String) : String :=
  match query.find? (fun p => p.1 == key) with
  | some p => p.2
  | none => ""

/-- The digit run of Go `strconv.Atoi`: at least one character, all
decimal digits, accumulated left to right. -/
def parseDigits (cs : List Char) : Option Nat :=
  if cs.isEmpty then none
  else
    cs.foldl
      (fun acc c =>
        match acc with
        | none => none
        | some n => if c.isDigit then some (n * 10 + (c.toNat - 48)) else none)
      (some 0)

/-- Go `strconv.Atoi`: an optional sign followed by one or more decimal
digits, within the 64-bit `int` range; anything else (and any overflow)
makes `Atoi` report a non-nil error, modelled as `none`. -/
def atoi (s : String) : Option Int :=
  let signed : Bool × List Char :=
    match s.data with
    | Char.ofNat 45 :: rest => (true, rest)
    | Char.ofNat 43 :: rest => (false, rest)
    | cs => (false, cs)
  match parseDigits signed.2 with
  | none => none
  | some n =>
    let v : Int := if signed.1 then -(n : Int) else (n : Int)
    if v < -(2 ^ 63) then none
    else if v > 2 ^ 63 - 1 then none
    else some v

/-- `parseIntQuery` (events.go): absent parameter → `d`; `Atoi` failure →
`d`; otherwise the parsed value clamped below by `lo` and above by `hi`.
The Go parameters `def`, `min`, `max` are spelled `d`, `lo`, `hi` (`def`
is reserved in Lean). -/
def parseIntQuery (query : List (String × String)) (key : String)
    (d lo hi : Int) : Int :=
  let v := queryGet query key
  if v = "" then d
  else
    match atoi v with
    | none => d
    | some n => if n < lo then lo else if n > hi then hi else n

/-- The `(limit, offset)` pair `getEvents` (events.go) computes and passes
to `schemas.ListEvents`: defaults 50 and 0, bounds `[1, 200]` and
`[0, 1_000_000]`. -/
def getEventsListArgs (query : List (String × String)) : Int × Int :=
  (parseIntQuery query "limit" 50 1 200,
   parseIntQuery query "offset" 0 0 1000000)

/-- An HTTP response body: `http.Error` text, a `writeJSON` event payload,
or the JSON `null` a nil `*Event` would serialize to. -/
inductive Body where
  | text (s : String)
  | json (e : schemas.Event)
  | jsonNull
deriving DecidableEq, Repr

/-- The `getEvent` handler for `GET /events/{id}` (events.go): on error,
`sql.ErrNoRows` (by `errors.Is`) becomes `404 "event not found"`, any
other error becomes `500` with the error text; on success the event is
written with `writeJSON(w, http.StatusCreated, out)`, i.e. status 201. -/
def getEvent (db : Option schemas.DB) (id : String) : Nat × Body :=
  match schemas.GetEvent db id with
  | (_, some err) =>
    if errorsIs err .errNoRows then (404, .text "event not found")
    else (500, .text (errMsg err))
  | (some out, none) => (201, .json out)
  | (none, none) => (201, .jsonNull)

/-- The effect of executing `CREATE TABLE IF NOT EXISTS <name> (...)` on
the set of existing table names: create the table when absent, leave the
database untouched when it already exists. -/
def execCreateIfNotExists (tables : List String) (name : String) : List String :=
  if name ∈ tables then tables else tables ++ [name]

/-- The effect of `schemas.CreateSchema` (schema.go) on the table-name
state: it executes exactly `schemaToCreationString schema`, a
`CREATE TABLE IF NOT EXISTS` statement for `schema.Name`. -/
def CreateSchemaState (tables : List String) (schema : schemas.Schema) : List String :=
  execCreateIfNotExists tables schema.Name

/-- The effect of `initDatabase` (events.go) on the table-name state: it
runs `CreateSchema` for the events, occurrences and exceptions schemas in
that order. -/
def initDatabaseState (tables : List String) : List String :=
  CreateSchemaState
    (CreateSchemaState
      (CreateSchemaState tables schemas.CreateEventSchema)
      schemas.CreateOccurrenceSchema)
    schemas.CreateExceptionSchema

end server

namespace engine

/-- A time instant (the spec's absolute instants), modelled as `Int`. -/
abbrev Time := Int

/-- Modelled from the spec: the repository specifies a recurrence engine
(spec §2, §4.1) but contains no implementation of it — no Go source file
defines `Expand` or any rule expansion.  A recurrence rule per spec §3:
a repetition period between candidate starts (frequency × interval) and
the optional `count`/`until` termination bounds.  The calendar-level
`by-day`/`by-month-day` constraints and DST-aware zone arithmetic of the
spec are not modelled; no claim settled here depends on them. -/
structure Rule where
  period : Int
  count : Option Nat := none
  untilT : Option Time := none
deriving DecidableEq, Repr

/-- Modelled from the spec: the `Event` the missing engine consumes
(spec §3 and §8) — identifier, stored start/end instants, timezone,
all-day flag, and a nullable recurrence rule.  The spec's `end` field is
spelled `stop` (`end` is reserved in Lean). -/
structure Event where
  eventId : String
  start : Time
  stop : Time
  timezone : String := "UTC"
  isAllDay : Bool := false
  rrule : Option Rule := none
deriving DecidableEq, Repr

/-- Modelled from the spec: an exception's `kind` (spec §3) — `cancel`,
or `move` carrying `newStart`/`newEnd`, which are present exactly when
the kind is `move`. -/
inductive ExceptionAction where
  | cancel
  | move (newStart newEnd : Time)
deriving DecidableEq, Repr

/-- Modelled from the spec: a `RecurrenceException` (spec §3), keyed by
the original rule-produced start instant. -/
structure RecurrenceException where
  recurrenceId : Time
  action : ExceptionAction
deriving DecidableEq, Repr

/-- Modelled from the spec: the `Occurrence` the missing engine emits
(spec §3): back-reference, effective start/end, and the override flag. -/
structure Occurrence where
  eventId : String
  startTime : Time
  endTime : Time
  isOverride : Bool
deriving DecidableEq, Repr

/-- Modelled from the spec: the engine error taxonomy (spec §7). -/
inductive EngineError where
  | invalidWindow
  | malformedRule
  | ruleBudgetExceeded
deriving DecidableEq, Repr

/-- Exception lookup by `recurrenceId` (spec §4.1 step 3). -/
def findException (exs : List RecurrenceException) (rid : Time) :
    Option RecurrenceException :=
  exs.find? (fun ex => ex.recurrenceId == rid)

/-- Half-open interval `[s, e)` intersects half-open window `[ws, we)`. -/
def intersectsWindow (s e ws we : Time) : Bool :=
  decide (max s ws < min e we)

/-- Modelled from the spec: steps 1 and 3 of the missing engine's
algorithm (spec §4.1) for one candidate slot.  No exception: emit the
slot iff it intersects the window, `isOverride = false`.  `cancel`:
suppress.  `move`: emit with the override start/end, `isOverride = true`,
filtered against the window using the new start/end. -/
def resolveSlot (ev : Event) (exs : List RecurrenceException)
    (ws we slotStart slotEnd : Time) : Option Occurrence :=
  match findException exs slotStart with
  | none =>
    if intersectsWindow slotStart slotEnd ws we then
      some ⟨ev.eventId, slotStart, slotEnd, false⟩
    else none
  | some ex =>
    match ex.action with
    | .cancel => none
    | .move ns ne =>
      if intersectsWindow ns ne ws we then
        some ⟨ev.eventId, ns, ne, true⟩
      else none

/-- Modelled from the spec: step 2 of the missing engine's algorithm
(spec §4.1) — ascending candidate starts `anchor + k · period`, stopped
at `windowEnd`, at an exhausted `count`, or past `until`, whichever is
sooner. -/
def ruleCandidates (r : Rule) (anchor : Time) (windowEnd : Time) : List Time :=
  let kWin : Nat :=
    if anchor < windowEnd ∧ 0 < r.period then
      (((windowEnd - anchor - 1) / r.period) + 1).toNat
    else 0
  let kMax : Nat :=
    match r.count with
    | some c => min c kWin
    | none => kWin
  ((List.range kMax).map (fun k => anchor + (k : Int) * r.period)).filter
    (fun s =>
      match r.untilT with
      | some u => decide (s ≤ u)
      | none => true)

/-- Ordering of emitted occurrences (spec §4.1 step 6): ascending by
effective start, ties broken by `eventId`. -/
def occLE (a b : Occurrence) : Bool :=
  decide (a.startTime < b.startTime)
    || (a.startTime == b.startTime && decide (a.eventId ≤ b.eventId))

/-- Ordered insertion for `sortByStart`. -/
def insertOcc (a : Occurrence) : List Occurrence → List Occurrence
  | [] => [a]
  | b :: rest => if occLE a b then a :: b :: rest else b :: insertOcc a rest

/-- Insertion sort realising the output ordering of spec §4.1 step 6. -/
def sortByStart : List Occurrence → List Occurrence
  | [] => []
  | a :: rest => insertOcc a (sortByStart rest)

/-- Modelled from the spec: the missing engine's sole entry point
`Expand(event, exceptions, windowStart, windowEnd)` (spec §4.1).
Window validation follows the spec's failure semantics (§4.1, §8):
`windowStart == windowEnd` yields an empty result, not an error, so only
a negative-width window is `InvalidWindowError`.  A null `rrule` yields
the single stored slot (step 1); a non-null rule yields the candidate
slots of `ruleCandidates`, each slot keeping the event's stored duration.
Every slot runs through exception resolution and window filtering
(`resolveSlot`), and the result is ordered by `sortByStart`. -/
def Expand (event : Event) (exceptions : List RecurrenceException)
    (windowStart windowEnd : Time) : Except EngineError (List Occurrence) :=
  if windowEnd < windowStart then .error .invalidWindow
  else
    let slots : List (Time × Time) :=
      match event.rrule with
      | none => [(event.start, event.stop)]
      | some r =>
        (ruleCandidates r event.start windowEnd).map
          (fun s => (s, s + (event.stop - event.start)))
    .ok (sortByStart (slots.filterMap
      (fun p => resolveSlot event exceptions windowStart windowEnd p.1 p.2)))

end engine

set_option maxRecDepth 40000

/-- A concrete healthy database with no rows, whose inserts scan cleanly. -/
def dbEmpty : schemas.DB :=
  { events := [], insertRow := fun e => (e, none) }

/-- Claim C3: the `CREATE TABLE` statement produced by
`schemaToCreationString (CreateExceptionSchema)` declares a table-level
composite primary key over exactly the columns `eventID` and
`recurrenceID`, and no column of the exceptions schema carries an inline
`PRIMARY KEY` constraint. -/
theorem exceptions_schema_composite_primary_key :
    schemas.pkCols schemas.CreateExceptionSchema = ["eventID", "recurrenceID"]
    ∧ "PRIMARY KEY (eventID, recurrenceID)" ∈ schemas.schemaCols schemas.CreateExceptionSchema
    ∧ occursIn (schemas.schemaToCreationString schemas.CreateExceptionSchema)
        "PRIMARY KEY (eventID, recurrenceID)" = true
    ∧ schemas.CreateExceptionSchema.Columns.all
        (fun c => !(occursIn
          (schemas.columnToString c (schemas.pkCols schemas.CreateExceptionSchema).length)
          "PRIMARY KEY")) = true := by
  decide

/-- Claim C4: the `CREATE TABLE` statement generated for the exceptions
schema contains, on the `eventID` column, a `REFERENCES` clause on
`events(eventID)` with `ON DELETE CASCADE`, so deleting an event cascades
to its recurrence exceptions. -/
theorem exceptions_schema_cascade_delete :
    ∃ c ∈ schemas.CreateExceptionSchema.Columns,
      c.Name = "eventID"
      ∧ occursIn
          (schemas.columnToString c (schemas.pkCols schemas.CreateExceptionSchema).length)
          "REFERENCES events(eventID) ON DELETE CASCADE" = true
      ∧ occursIn (schemas.schemaToCreationString schemas.CreateExceptionSchema)
          "REFERENCES events(eventID) ON DELETE CASCADE" = true := by
  decide

lemma mem_execCreateIfNotExists_self (tables : List String) (n : String) :
    n ∈ server.execCreateIfNotExists tables n := by
  unfold server.execCreateIfNotExists
  split
  · assumption
  · simp

lemma mem_execCreateIfNotExists_of_mem {tables : List String} {m : String}
    (h : m ∈ tables) (n : String) : m ∈ server.execCreateIfNotExists tables n := by
  unfold server.execCreateIfNotExists
  split
  · exact h
  · exact List.mem_append_left _ h

lemma execCreateIfNotExists_of_mem {tables : List String} {n : String}
    (h : n ∈ tables) : server.execCreateIfNotExists tables n = tables := by
  unfold server.execCreateIfNotExists
  exact if_pos h

/-- Claim C10: every generated schema-creation statement begins with
`CREATE TABLE IF NOT EXISTS`, so running `CreateSchema` twice for the
same schema — and hence running `initDatabase`, which creates the events,
occurrences and exceptions tables, twice — leaves the set of database
tables exactly as one run leaves it. -/
theorem schema_creation_idempotent :
    (∀ schema : schemas.Schema, ∃ rest : String,
      schemas.schemaToCreationString schema = "CREATE TABLE IF NOT EXISTS " ++ rest)
    ∧ (∀ (tables : List String) (schema : schemas.Schema),
      server.CreateSchemaState (server.CreateSchemaState tables schema) schema
        = server.CreateSchemaState tables schema)
    ∧ (∀ tables : List String,
      server.initDatabaseState (server.initDatabaseState tables)
        = server.initDatabaseState tables) := by
  refine ⟨?_, ?_, ?_⟩
  · intro schema
    refine ⟨schema.Name ++ (" (" ++ (", ".intercalate (schemas.schemaCols schema) ++ ");")), ?_⟩
    simp [schemas.schemaToCreationString, String.append_assoc]
  · intro tables schema
    exact execCreateIfNotExists_of_mem (mem_execCreateIfNotExists_self _ _)
  · intro tables
    unfold server.initDatabaseState server.CreateSchemaState
    have h1 : schemas.CreateEventSchema.Name ∈
        server.execCreateIfNotExists
          (server.execCreateIfNotExists
            (server.execCreateIfNotExists tables schemas.CreateEventSchema.Name)
            schemas.CreateOccurrenceSchema.Name)
          schemas.CreateExceptionSchema.Name :=
      mem_execCreateIfNotExists_of_mem
        (mem_execCreateIfNotExists_of_mem (mem_execCreateIfNotExists_self _ _) _) _
    rw [execCreateIfNotExists_of_mem h1]
    have h2 : schemas.CreateOccurrenceSchema.Name ∈
        server.execCreateIfNotExists
          (server.execCreateIfNotExists
            (server.execCreateIfNotExists tables schemas.CreateEventSchema.Name)
            schemas.CreateOccurrenceSchema.Name)
          schemas.CreateExceptionSchema.Name :=
      mem_execCreateIfNotExists_of_mem (mem_execCreateIfNotExists_self _ _) _
    rw [execCreateIfNotExists_of_mem h2]
    exact execCreateIfNotExists_of_mem (mem_execCreateIfNotExists_self _ _)

/-- Claim C7 counterexample: the generated events table does NOT permit
NULL for `title` — its rendered column carries `NOT NULL` — and
`CreateEvent` does not accept an input event whose title is empty: on
such an input it returns a non-nil error. -/
theorem event_title_optional_counterexample :
    occursIn (schemas.schemaToCreationString schemas.CreateEventSchema)
      "title varchar(255) NOT NULL" = true
    ∧ (schemas.CreateEvent (some dbEmpty)
        { schemas.zeroEvent with PersonName := "p", Timezone := "UTC" }).err.isSome
        = true := by
  constructor
  · decide
  · rfl

/-- Claim C7 (amended): of the two free-text fields only `notes` is
optional — the generated events table permits NULL for `notes` (no
`NOT NULL` on its column) — while `title` is constrained `NOT NULL` and
`CreateEvent` rejects every input event whose title is empty. -/
theorem event_notes_nullable_title_required :
    (∃ c ∈ schemas.CreateEventSchema.Columns,
      c.Name = "notes" ∧ c.Nullable = true
      ∧ occursIn
          (schemas.columnToString c (schemas.pkCols schemas.CreateEventSchema).length)
          "NOT NULL" = false)
    ∧ (∃ c ∈ schemas.CreateEventSchema.Columns,
      c.Name = "title"
      ∧ occursIn
          (schemas.columnToString c (schemas.pkCols schemas.CreateEventSchema).length)
          "NOT NULL" = true)
    ∧ ∀ (db : Option schemas.DB) (inEvent : schemas.Event),
        inEvent.Title = "" → (schemas.CreateEvent db inEvent).err.isSome = true := by
  refine ⟨by decide, by decide, ?_⟩
  intro db inEvent h
  cases db with
  | none => rfl
  | some d =>
    by_cases hp : inEvent.PersonName = ""
    · simp [schemas.CreateEvent, hp]
    · simp [schemas.CreateEvent, hp, h]

/-- Witness for the amended claim C7 at a concrete input. -/
theorem event_notes_nullable_title_required_witness :
    (schemas.CreateEvent (some dbEmpty)
      { schemas.zeroEvent with PersonName := "p", Timezone := "UTC" }).err.isSome
      = true :=
  event_notes_nullable_title_required.2.2 (some dbEmpty)
    { schemas.zeroEvent with PersonName := "p", Timezone := "UTC" } rfl

/-- A concrete occurrence (a normal slot with an end time) used to refute
claim C2 as stated. -/
def occC2 : schemas.Occurrence :=
  { EventID := "e1", StartTime := 0, EndTime := some 3600 }

/-- Claim C2 counterexample: the JSON serialization of the repository's
`Occurrence` struct does not consist of the fields `eventId`,
`startTime`, `endTime`, `isOverride`: for a concrete occurrence the
emitted fields are `eventId`, `startTime`, `endTime`, `moved`, and no
`isOverride` field exists. -/
theorem occurrence_json_fields_counterexample :
    schemas.occurrenceJSONFields occC2 ≠ ["eventId", "startTime", "endTime", "isOverride"]
    ∧ schemas.occurrenceJSONFields occC2 = ["eventId", "startTime", "endTime", "moved"]
    ∧ "isOverride" ∉ schemas.occurrenceJSONFields occC2 := by
  refine ⟨by decide, by decide, by decide⟩

/-- Claim C2 (amended): the JSON serialization of an `Occurrence` always
has the fields `eventId`, `startTime` and `moved` — `moved` carrying the
integer `Kind`, which marks a move override, rather than a boolean
`isOverride` — plus `endTime`, `newStartTime` and `newEndTime` exactly
when the corresponding optional value is present; no `isOverride` field
is ever emitted. -/
theorem occurrence_json_fields_spec (o : schemas.Occurrence) :
    schemas.occurrenceJSONFields o =
      ["eventId", "startTime"]
        ++ (if o.EndTime.isSome then ["endTime"] else [])
        ++ ["moved"]
        ++ (if o.NewStartTime.isSome then ["newStartTime"] else [])
        ++ (if o.NewEndTime.isSome then ["newEndTime"] else [])
    ∧ ("moved", .jint (schemas.occurrenceTypeToInt o.Kind)) ∈ schemas.marshalOccurrence o
    ∧ "isOverride" ∉ schemas.occurrenceJSONFields o := by
  obtain ⟨id, st, et, k, ns, ne⟩ := o
  cases et <;> cases ns <;> cases ne <;>
    simp [schemas.occurrenceJSONFields, schemas.marshalOccurrence]

lemma intersectsWindow_self_false (s e t : engine.Time) :
    engine.intersectsWindow s e t t = false := by
  simp only [engine.intersectsWindow, decide_eq_false_iff_not, not_lt]
  exact (min_le_right e t).trans (le_max_right s t)

lemma resolveSlot_empty_window (ev : engine.Event)
    (exs : List engine.RecurrenceException) (t s e : engine.Time) :
    engine.resolveSlot ev exs t t s e = none := by
  unfold engine.resolveSlot
  cases engine.findException exs s with
  | none => simp [intersectsWindow_self_false]
  | some ex =>
    obtain ⟨rid, act⟩ := ex
    cases act with
    | cancel => rfl
    | move ns ne => simp [intersectsWindow_self_false]

lemma filterMap_none_eq_nil {A B : Type} (l : List A) (f : A → Option B)
    (h : ∀ a, f a = none) : l.filterMap f = [] := by
  induction l with
  | nil => rfl
  | cons a rest ih => simp [List.filterMap_cons, h, ih]

/-- Claim C5: window validation of `Expand` — a window with
`windowStart = windowEnd` yields an empty occurrence list and no error,
and a window of negative width (`windowEnd < windowStart`) yields
`InvalidWindowError` and no occurrence list. -/
theorem expand_window_validation (ev : engine.Event)
    (exs : List engine.RecurrenceException) (ws we : engine.Time) :
    (ws = we → engine.Expand ev exs ws we = .ok [])
    ∧ (we < ws → engine.Expand ev exs ws we = .error .invalidWindow) := by
  constructor
  · intro h
    subst h
    unfold engine.Expand
    rw [if_neg (lt_irrefl ws)]
    cases hr : ev.rrule with
    | none =>
      simp only [hr]
      rw [filterMap_none_eq_nil _ _ (fun (p : engine.Time × engine.Time) => resolveSlot_empty_window ev exs ws p.1 p.2)]
      rfl
    | some r =>
      simp only [hr]
      rw [filterMap_none_eq_nil _ _ (fun (p : engine.Time × engine.Time) => resolveSlot_empty_window ev exs ws p.1 p.2)]
      rfl
  · intro h
    unfold engine.Expand
    rw [if_pos h]

/-- Witness for claim C5 at concrete inputs. -/
theorem expand_window_validation_witness :
    engine.Expand { eventId := "e1", start := 10, stop := 20 } [] 3 3 = .ok []
    ∧ engine.Expand { eventId := "e1", start := 10, stop := 20 } [] 5 2
        = .error .invalidWindow :=
  ⟨(expand_window_validation { eventId := "e1", start := 10, stop := 20 } [] 3 3).1 rfl,
   (expand_window_validation { eventId := "e1", start := 10, stop := 20 } [] 5 2).2
     (by decide)⟩

/-- A concrete non-recurring event (start 10, end 20) used for claim C1. -/
def evW : engine.Event := { eventId := "e1", start := 10, stop := 20 }

/-- Claim C1 counterexample: the window `[12, 15)` does not contain the
stored start `S = 10` of the non-recurring event `evW`, yet `Expand`
returns its occurrence rather than the empty list, because the engine
emits a non-recurring occurrence whenever its interval `[S, E)`
intersects the window (spec §4.1 step 1), not only when the window
contains `S`. -/
theorem nonrecurring_roundtrip_counterexample :
    ¬ (12 ≤ evW.start ∧ evW.start < 15)
    ∧ engine.Expand evW [] 12 15
        = .ok [{ eventId := "e1", startTime := 10, endTime := 20, isOverride := false }] := by
  exact ⟨by decide, rfl⟩

/-- Claim C1 (amended): for a non-recurring event (`rrule = null`) with
stored start `S`, end `E`, `S < E`, and no exception keyed at `S`, every
window containing `S` yields exactly one occurrence `(S, E,
isOverride=false)`, and every well-formed window whose interval is
disjoint from `[S, E)` (rather than merely not containing `S`) yields the
empty list. -/
theorem nonrecurring_roundtrip (ev : engine.Event)
    (exs : List engine.RecurrenceException) (ws we : engine.Time)
    (hr : ev.rrule = none) (hse : ev.start < ev.stop)
    (hex : engine.findException exs ev.start = none) :
    (ws ≤ ev.start → ev.start < we →
      engine.Expand ev exs ws we
        = .ok [{ eventId := ev.eventId, startTime := ev.start,
                 endTime := ev.stop, isOverride := false }])
    ∧ (ws ≤ we → engine.intersectsWindow ev.start ev.stop ws we = false →
      engine.Expand ev exs ws we = .ok []) := by
  constructor
  · intro h1 h2
    have hwin : ¬ we < ws := not_lt.mpr (le_of_lt (lt_of_le_of_lt h1 h2))
    have hint : engine.intersectsWindow ev.start ev.stop ws we = true := by
      simp only [engine.intersectsWindow, decide_eq_true_eq]
      rw [max_eq_left h1]
      exact lt_min hse h2
    unfold engine.Expand
    rw [if_neg hwin]
    simp only [hr, List.filterMap_cons, List.filterMap_nil]
    unfold engine.resolveSlot
    rw [hex]
    simp only [hint, if_true]
    rfl
  · intro hw hint
    have hwin : ¬ we < ws := not_lt.mpr hw
    unfold engine.Expand
    rw [if_neg hwin]
    simp only [hr, List.filterMap_cons, List.filterMap_nil]
    unfold engine.resolveSlot
    rw [hex]
    simp only [hint]
    rfl

/-- Witness for the amended claim C1 at concrete inputs: the window
`[5, 15)` contains the start of `evW` and yields its single occurrence;
the window `[25, 30)` is disjoint from `[10, 20)` and yields nothing. -/
theorem nonrecurring_roundtrip_witness :
    engine.Expand evW [] 5 15
      = .ok [{ eventId := "e1", startTime := 10, endTime := 20, isOverride := false }]
    ∧ engine.Expand evW [] 25 30 = .ok [] := by
  constructor
  · exact (nonrecurring_roundtrip evW [] 5 15 rfl (by decide) rfl).1 (by decide) (by decide)
  · exact (nonrecurring_roundtrip evW [] 25 30 rfl (by decide) rfl).2 (by decide) (by decide)

/-- Claim C6: for every id with no matching event row, `GetEvent` returns
no event together with an error `e` for which `errors.Is(e,
sql.ErrNoRows)` holds, and the `GET /events/{id}` handler maps exactly
that error — and no other — to a `404 "event not found"` response. -/
theorem getEvent_not_found_contract (db : schemas.DB) (id : String)
    (h : ∀ e ∈ db.events, e.EventID ≠ id) :
    (schemas.GetEvent (some db) id).1 = none
    ∧ (∃ err, (schemas.GetEvent (some db) id).2 = some err
        ∧ errorsIs err .errNoRows = true)
    ∧ server.getEvent (some db) id = (404, .text "event not found")
    ∧ ∀ (db2 : Option schemas.DB) (id2 : String),
        (server.getEvent db2 id2).1 = 404 →
        ∃ err, (schemas.GetEvent db2 id2).2 = some err
          ∧ errorsIs err .errNoRows = true := by
  have hf : db.events.find? (fun e => e.EventID == id) = none := by
    rw [List.find?_eq_none]
    intro e he
    simpa using h e he
  refine ⟨?_, ?_, ?_, ?_⟩
  · simp [schemas.GetEvent, hf]
  · exact ⟨.wrap "list events scan" .errNoRows, by simp [schemas.GetEvent, hf], rfl⟩
  · simp [server.getEvent, schemas.GetEvent, hf]
    rfl
  · intro db2 id2 h404
    cases db2 with
    | none =>
      exfalso
      simp [server.getEvent, schemas.GetEvent, errorsIs, errMsg] at h404
    | some d =>
      cases hf2 : d.events.find? (fun e => e.EventID == id2) with
      | some e =>
        exfalso
        simp [server.getEvent, schemas.GetEvent, hf2] at h404
      | none =>
        exact ⟨.wrap "list events scan" .errNoRows,
          by simp [schemas.GetEvent, hf2], rfl⟩

/-- Witness for claim C6 at a concrete input: an empty database and a
missing id. -/
theorem getEvent_not_found_contract_witness :
    server.getEvent (some dbEmpty) "nope" = (404, .text "event not found") :=
  (getEvent_not_found_contract dbEmpty "nope" (by simp [dbEmpty])).2.2.1

lemma parseIntQuery_bounds (query : List (String × String)) (key : String)
    {d lo hi : Int} (h1 : lo ≤ d) (h2 : d ≤ hi) :
    lo ≤ server.parseIntQuery query key d lo hi
    ∧ server.parseIntQuery query key d lo hi ≤ hi := by
  unfold server.parseIntQuery
  by_cases hv : server.queryGet query key = ""
  · simp [hv]
    exact ⟨h1, h2⟩
  · simp only [hv, if_false]
    cases server.atoi (server.queryGet query key) with
    | none => exact ⟨h1, h2⟩
    | some n =>
      by_cases hlo : n < lo
      · simp only [if_pos hlo]
        exact ⟨le_refl lo, le_trans h1 h2⟩
      · by_cases hhi : n > hi
        · simp only [if_neg hlo, if_pos hhi]
          exact ⟨le_trans h1 h2, le_refl hi⟩
        · simp only [if_neg hlo, if_neg hhi]
          exact ⟨le_of_not_lt hlo, le_of_not_lt hhi⟩

/-- Claim C8: `parseIntQuery` always returns a value clamped into
`[lo, hi]` whenever `lo ≤ d ≤ hi`, and returns the default `d` whenever
the query parameter is absent (`Get` yields `""`) or is not a decimal
integer (`Atoi` fails); consequently the limit `getEvents` passes to
`ListEvents` always lies in `[1, 200]` and the offset in
`[0, 1000000]`. -/
theorem parseIntQuery_clamps (query : List (String × String)) (key : String)
    (d lo hi : Int) (h1 : lo ≤ d) (h2 : d ≤ hi) :
    (lo ≤ server.parseIntQuery query key d lo hi
      ∧ server.parseIntQuery query key d lo hi ≤ hi)
    ∧ (server.atoi (server.queryGet query key) = none →
        server.parseIntQuery query key d lo hi = d)
    ∧ (server.queryGet query key = "" →
        server.parseIntQuery query key d lo hi = d)
    ∧ ∀ q2 : List (String × String),
        (1 ≤ (server.getEventsListArgs q2).1 ∧ (server.getEventsListArgs q2).1 ≤ 200)
        ∧ (0 ≤ (server.getEventsListArgs q2).2
            ∧ (server.getEventsListArgs q2).2 ≤ 1000000) := by
  refine ⟨parseIntQuery_bounds query key h1 h2, ?_, ?_, ?_⟩
  · intro hn
    unfold server.parseIntQuery
    by_cases hv : server.queryGet query key = ""
    · simp [hv]
    · simp [hv, hn]
  · intro hv
    unfold server.parseIntQuery
    simp [hv]
  · intro q2
    exact ⟨parseIntQuery_bounds q2 "limit" (by decide) (by decide),
      parseIntQuery_bounds q2 "offset" (by decide) (by decide)⟩

/-- Witness for claim C8 at a concrete input: a request whose `limit`
parameter is not numeric keeps the default and stays within bounds. -/
theorem parseIntQuery_clamps_witness :
    (1 ≤ server.parseIntQuery [("limit", "abc")] "limit" 50 1 200
      ∧ server.parseIntQuery [("limit", "abc")] "limit" 50 1 200 ≤ 200)
    ∧ server.parseIntQuery [("limit", "abc")] "limit" 50 1 200 = 50 :=
  ⟨(parseIntQuery_clamps [("limit", "abc")] "limit" 50 1 200
      (by decide) (by decide)).1,
   (parseIntQuery_clamps [("limit", "abc")] "limit" 50 1 200
      (by decide) (by decide)).2.1 rfl⟩

/-- Claim C9: whenever the input event's `PersonName`, `Title` or
`Timezone` is empty, `CreateEvent` returns the zero `Event` and a non-nil
error having issued no database query, so the error path leaves the
database untouched. -/
theorem createEvent_validation_no_query (db : Option schemas.DB)
    (inEvent : schemas.Event)
    (h : inEvent.PersonName = "" ∨ inEvent.Title = "" ∨ inEvent.Timezone = "") :
    (schemas.CreateEvent db inEvent).event = schemas.zeroEvent
    ∧ (schemas.CreateEvent db inEvent).err.isSome = true
    ∧ (schemas.CreateEvent db inEvent).queries = [] := by
  cases db with
  | none => exact ⟨rfl, rfl, rfl⟩
  | some d =>
    by_cases hp : inEvent.PersonName = ""
    · simp [schemas.CreateEvent, hp]
    · by_cases ht : inEvent.Title = ""
      · simp [schemas.CreateEvent, hp, ht]
      · have hz : inEvent.Timezone = "" := by tauto
        simp [schemas.CreateEvent, hp, ht, hz]

/-- Witness for claim C9 at a concrete input: an event with an empty
title is rejected with no query issued. -/
theorem createEvent_validation_no_query_witness :
    (schemas.CreateEvent (some dbEmpty)
      { schemas.zeroEvent with PersonName := "p", Timezone := "UTC" }).queries = [] :=
  (createEvent_validation_no_query (some dbEmpty)
    { schemas.zeroEvent with PersonName := "p", Timezone := "UTC" }
    (Or.inr (Or.inl rfl))).2.2
